import Mathlib

/-!
Shallow embedding of the Makoy-store backend (`src/backend/server.py`).

The MongoDB collections (`db.users`, `db.products`, `db.topup_requests`,
`db.purchases`, `db.blog_posts`) are modelled as lists in insertion order;
`find_one` is `List.find?`, `insert_one` appends, `update_one` updates the
first matching document (`updateFirst` below), and `.to_list(100)` is
`List.take 100` of the filtered list.  Monetary amounts (Python floats) are
modelled as exact rationals.  Timestamps are abstract `Nat` instants and
freshly generated UUIDs are passed in as explicit arguments.  Each HTTP
handler becomes a pure function from the database state (plus the already
authenticated caller, which FastAPI's `Depends(get_current_user)` supplies)
to a result together with the new database state; an `HTTPException` raised
by the handler becomes an `Except.error` and leaves the state unchanged,
exactly as in the source where every `raise` happens before any write.
-/

/-- `HTTPException(status_code, detail)` from FastAPI. -/
structure HTTPException where
  status_code : Nat
  detail : String
deriving DecidableEq

/-- The `User` document model (`server.py` lines 39-46). -/
structure User where
  id : String
  email : String
  username : String
  password_hash : String
  is_admin : Bool
  wallet_balance : ℚ
  created_at : Nat
deriving DecidableEq

/-- The `UserCreate` request body (`server.py` lines 48-52): note that it
carries a caller-supplied `is_admin` flag, default `false`. -/
structure UserCreate where
  email : String
  username : String
  password : String
  is_admin : Bool
deriving DecidableEq

/-- The `Product` document model (`server.py` lines 58-66). -/
structure Product where
  id : String
  name : String
  description : String
  price : ℚ
  image_url : String
  category : String
  is_active : Bool
  created_at : Nat
deriving DecidableEq

/-- The `ProductCreate` request body (`server.py` lines 68-73). -/
structure ProductCreate where
  name : String
  description : String
  price : ℚ
  image_url : String
  category : String
deriving DecidableEq

/-- The `TopUpRequest` document model (`server.py` lines 75-83);
`status` ranges over `"pending"`, `"approved"`, `"rejected"`. -/
structure TopUpRequest where
  id : String
  user_id : String
  amount : ℚ
  receipt_data : String
  status : String
  created_at : Nat
  processed_at : Option Nat
  admin_notes : Option String
deriving DecidableEq

/-- The `TopUpCreate` request body (`server.py` lines 85-87). -/
structure TopUpCreate where
  amount : ℚ
  receipt_data : String
deriving DecidableEq

/-- The `Purchase` document model (`server.py` lines 89-95). -/
structure Purchase where
  id : String
  user_id : String
  product_id : String
  product_name : String
  amount : ℚ
  created_at : Nat
deriving DecidableEq

/-- The `BlogPost` document model (`server.py` lines 110-116). -/
structure BlogPost where
  id : String
  title : String
  content : String
  author_id : String
  created_at : Nat
  is_published : Bool
deriving DecidableEq

/-- The `BlogPostCreate` request body (`server.py` lines 118-120). -/
structure BlogPostCreate where
  title : String
  content : String
deriving DecidableEq

/-- The document store: one list per collection touched by the claims,
in insertion order. -/
structure DB where
  users : List User
  products : List Product
  topup_requests : List TopUpRequest
  purchases : List Purchase
  blog_posts : List BlogPost
deriving DecidableEq

/-- Mongo's `update_one`: apply `f` to the first element matching `p`,
leaving everything else untouched (a no-op when nothing matches). -/
def updateFirst {α : Type} (p : α → Bool) (f : α → α) : List α → List α
  | [] => []
  | x :: xs => if p x then f x :: xs else x :: updateFirst p f xs

/-- The `{"$inc": {"wallet_balance": amount}}` update document applied by
`approve_topup` (`server.py` lines 262-265). -/
def incBalance (amount : ℚ) (u : User) : User :=
  { u with wallet_balance := u.wallet_balance + amount }

/-- The `{"$inc": {"wallet_balance": -price}}` update document applied by
`purchase_product` (`server.py` lines 317-320). -/
def decBalance (amount : ℚ) (u : User) : User :=
  { u with wallet_balance := u.wallet_balance - amount }

/-- The `$set` update document applied by `approve_topup`
(`server.py` lines 268-277). -/
def markApproved (now : Nat) (notes : Option String) (r : TopUpRequest) :
    TopUpRequest :=
  { r with status := "approved", processed_at := some now,
           admin_notes := notes }

/-- The `$set` update document applied by `reject_topup`
(`server.py` lines 291-300). -/
def markRejected (now : Nat) (notes : String) (r : TopUpRequest) :
    TopUpRequest :=
  { r with status := "rejected", processed_at := some now,
           admin_notes := some notes }

/-- `get_admin_user` (`server.py` lines 148-151): 403 unless the
authenticated caller has `is_admin` set. -/
def get_admin_user (current_user : User) : Except HTTPException User :=
  if !current_user.is_admin then
    .error ⟨403, "Admin access required"⟩
  else
    .ok current_user

/-- `get_current_user` (`server.py` lines 135-146), after a valid token:
resolve the token's `sub` email against `db.users`, 401 when absent. -/
def get_current_user (db : DB) (email : String) : Except HTTPException User :=
  match db.users.find? (fun u => u.email == email) with
  | none => .error ⟨401, "Could not validate credentials"⟩
  | some u => .ok u

/-- The public projection of a user returned by `register` (the `"user"`
field of the response, `server.py` lines 174-180). -/
structure UserPublic where
  id : String
  email : String
  username : String
  is_admin : Bool
  wallet_balance : ℚ
deriving DecidableEq

/-- `POST /api/register` (`server.py` lines 154-181).  `fresh_id` stands
for the generated `uuid4`, `hash` for `hash_password(password)` and `now`
for `datetime.utcnow()`.  The JWT access token is not modelled. -/
def register (db : DB) (user : UserCreate) (fresh_id : String) (hash : String)
    (now : Nat) : Except HTTPException UserPublic × DB :=
  match db.users.find? (fun u => u.email == user.email) with
  | some _ => (.error ⟨400, "Email already registered"⟩, db)
  | none =>
    let user_obj : User :=
      { id := fresh_id, email := user.email, username := user.username,
        password_hash := hash, is_admin := user.is_admin,
        wallet_balance := 0, created_at := now }
    (.ok { id := user_obj.id, email := user_obj.email,
           username := user_obj.username, is_admin := user_obj.is_admin,
           wallet_balance := user_obj.wallet_balance },
     { db with users := db.users ++ [user_obj] })

/-- `GET /api/products` (`server.py` lines 216-219): active products only,
`to_list(100)` capping the result at 100 documents. -/
def get_products (db : DB) : List Product :=
  (db.products.filter (fun p => p.is_active)).take 100

/-- `POST /api/products` (`server.py` lines 221-225), admin only. -/
def create_product (db : DB) (current_user : User) (product : ProductCreate)
    (fresh_id : String) (now : Nat) : Except HTTPException Product × DB :=
  match get_admin_user current_user with
  | .error e => (.error e, db)
  | .ok _ =>
    let product_obj : Product :=
      { id := fresh_id, name := product.name,
        description := product.description, price := product.price,
        image_url := product.image_url, category := product.category,
        is_active := true, created_at := now }
    (.ok product_obj, { db with products := db.products ++ [product_obj] })

/-- `GET /api/products/{product_id}` (`server.py` lines 227-232):
no `is_active` filter here. -/
def get_product (db : DB) (product_id : String) : Except HTTPException Product :=
  match db.products.find? (fun p => p.id == product_id) with
  | none => .error ⟨404, "Product not found"⟩
  | some p => .ok p

/-- `POST /api/topup` (`server.py` lines 235-239): inserts a new pending
top-up request for the authenticated caller. -/
def request_topup (db : DB) (current_user : User) (topup : TopUpCreate)
    (fresh_id : String) (now : Nat) : Except HTTPException String × DB :=
  let topup_obj : TopUpRequest :=
    { id := fresh_id, user_id := current_user.id, amount := topup.amount,
      receipt_data := topup.receipt_data, status := "pending",
      created_at := now, processed_at := none, admin_notes := none }
  (.ok topup_obj.id,
   { db with topup_requests := db.topup_requests ++ [topup_obj] })

/-- `GET /api/admin/topup-requests` (`server.py` lines 246-249), admin only,
capped at 100 documents. -/
def get_all_topup_requests (db : DB) (current_user : User) :
    Except HTTPException (List TopUpRequest) :=
  match get_admin_user current_user with
  | .error e => .error e
  | .ok _ => .ok (db.topup_requests.take 100)

/-- `POST /api/admin/topup-requests/{request_id}/approve`
(`server.py` lines 251-279): guarded by `status == "pending"`; increments
the requesting user's `wallet_balance` by the request's amount
(`$inc`, a no-op when no user matches), then marks the request approved
with `processed_at` and the optional `admin_notes`. -/
def approve_topup (db : DB) (current_user : User) (request_id : String)
    (admin_notes : Option String) (now : Nat) :
    Except HTTPException String × DB :=
  match get_admin_user current_user with
  | .error e => (.error e, db)
  | .ok _ =>
    match db.topup_requests.find? (fun r => r.id == request_id) with
    | none => (.error ⟨404, "Request not found"⟩, db)
    | some request =>
      if request.status != "pending" then
        (.error ⟨400, "Request already processed"⟩, db)
      else
        let users1 : List User :=
          updateFirst (fun u => u.id == request.user_id)
            (incBalance request.amount) db.users
        let topups1 : List TopUpRequest :=
          updateFirst (fun r => r.id == request_id)
            (markApproved now admin_notes) db.topup_requests
        (.ok "Top-up approved successfully",
         { db with users := users1, topup_requests := topups1 })

/-- `POST /api/admin/topup-requests/{request_id}/reject`
(`server.py` lines 281-302): guarded by `status == "pending"`; sets only
the request's status, `processed_at` and `admin_notes` (which here is a
plain string, default `""`). -/
def reject_topup (db : DB) (current_user : User) (request_id : String)
    (admin_notes : String) (now : Nat) : Except HTTPException String × DB :=
  match get_admin_user current_user with
  | .error e => (.error e, db)
  | .ok _ =>
    match db.topup_requests.find? (fun r => r.id == request_id) with
    | none => (.error ⟨404, "Request not found"⟩, db)
    | some request =>
      if request.status != "pending" then
        (.error ⟨400, "Request already processed"⟩, db)
      else
        let topups1 : List TopUpRequest :=
          updateFirst (fun r => r.id == request_id)
            (markRejected now admin_notes) db.topup_requests
        (.ok "Top-up rejected", { db with topup_requests := topups1 })

/-- `POST /api/purchase/{product_id}` (`server.py` lines 305-331):
404 when the product id is unknown (`is_active` is not consulted),
400 when `current_user.wallet_balance < price`; otherwise decrements the
caller's balance by the price and appends one purchase record. -/
def purchase_product (db : DB) (current_user : User) (product_id : String)
    (fresh_id : String) (now : Nat) : Except HTTPException String × DB :=
  match db.products.find? (fun p => p.id == product_id) with
  | none => (.error ⟨404, "Product not found"⟩, db)
  | some product =>
    if current_user.wallet_balance < product.price then
      (.error ⟨400, "Insufficient wallet balance"⟩, db)
    else
      let purchase : Purchase :=
        { id := fresh_id, user_id := current_user.id,
          product_id := product_id, product_name := product.name,
          amount := product.price, created_at := now }
      let users1 : List User :=
        updateFirst (fun u => u.id == current_user.id)
          (decBalance product.price) db.users
      (.ok purchase.id,
       { db with users := users1, purchases := db.purchases ++ [purchase] })

/-- `GET /api/purchases` (`server.py` lines 333-336): the caller's purchase
history, capped at 100 documents by `to_list(100)`. -/
def get_user_purchases (db : DB) (current_user : User) : List Purchase :=
  (db.purchases.filter (fun p => p.user_id == current_user.id)).take 100

/-- `POST /api/blog` (`server.py` lines 356-360), admin only. -/
def create_blog_post (db : DB) (current_user : User) (post : BlogPostCreate)
    (fresh_id : String) (now : Nat) : Except HTTPException BlogPost × DB :=
  match get_admin_user current_user with
  | .error e => (.error e, db)
  | .ok admin =>
    let post_obj : BlogPost :=
      { id := fresh_id, title := post.title, content := post.content,
        author_id := admin.id, created_at := now, is_published := true }
    (.ok post_obj, { db with blog_posts := db.blog_posts ++ [post_obj] })

/-! ### Generic lemmas about `updateFirst`, `find?` and filtered sums -/

theorem updateFirst_eq_of_find?_eq_none {α : Type} (p : α → Bool) (f : α → α) :
    ∀ l : List α, l.find? p = none → updateFirst p f l = l
  | [], _ => rfl
  | a :: t, h => by
    have ha : ¬ p a := by
      intro hpa
      simp [List.find?_cons_of_pos _ hpa] at h
    rw [List.find?_cons_of_neg _ ha] at h
    simp [updateFirst, ha, updateFirst_eq_of_find?_eq_none p f t h]

theorem updateFirst_decomp {α : Type} (p : α → Bool) (f : α → α) :
    ∀ (l : List α) (x : α), l.find? p = some x →
      ∃ l1 l2, l = l1 ++ x :: l2 ∧ (∀ y ∈ l1, p y = false) ∧
        updateFirst p f l = l1 ++ f x :: l2
  | [], x, h => by simp [List.find?] at h
  | a :: t, x, h => by
    by_cases hp : p a
    · rw [List.find?_cons_of_pos _ hp] at h
      obtain rfl : a = x := by injection h
      exact ⟨[], t, rfl, by simp, by simp [updateFirst, hp]⟩
    · rw [List.find?_cons_of_neg _ hp] at h
      obtain ⟨l1, l2, he, hnone, hupd⟩ := updateFirst_decomp p f t x h
      refine ⟨a :: l1, l2, by simp [he], ?_, by simp [updateFirst, hp, hupd]⟩
      intro y hy
      rcases List.mem_cons.mp hy with rfl | hy
      · exact Bool.eq_false_iff.mpr hp
      · exact hnone y hy

theorem find?_updateFirst_same {α : Type} (p : α → Bool) (f : α → α)
    (hf : ∀ x, p (f x) = p x) :
    ∀ l : List α, (updateFirst p f l).find? p = (l.find? p).map f
  | [] => rfl
  | a :: t => by
    by_cases hp : p a
    · have hfa : p (f a) := by rw [hf]; exact hp
      simp [updateFirst, hp, List.find?_cons_of_pos _ hp,
        List.find?_cons_of_pos _ hfa]
    · simp [updateFirst, hp, List.find?_cons_of_neg _ hp,
        find?_updateFirst_same p f hf t]

theorem map_updateFirst {α β : Type} (p : α → Bool) (f : α → α) (g : α → β)
    (hf : ∀ x, g (f x) = g x) :
    ∀ l : List α, (updateFirst p f l).map g = l.map g
  | [] => rfl
  | a :: t => by
    by_cases hp : p a <;>
      simp [updateFirst, hp, hf, map_updateFirst p f g hf t]

theorem find?_key_of_nodup {α : Type} (key : α → String) :
    ∀ (l : List α) (x : α), (l.map key).Nodup → x ∈ l →
      l.find? (fun y => key y == key x) = some x
  | [], x, _, hx => absurd hx (List.not_mem_nil x)
  | a :: t, x, hn, hx => by
    rw [List.map_cons, List.nodup_cons] at hn
    rcases List.mem_cons.mp hx with rfl | hx
    · exact List.find?_cons_of_pos _ (beq_self_eq_true _)
    · have hne : (key a == key x) = false := by
        rw [beq_eq_false_iff_ne]
        intro hk
        exact hn.1 (hk ▸ List.mem_map_of_mem key hx)
      rw [List.find?_cons, hne]
      exact find?_key_of_nodup key t x hn.2 hx

/-- Sum of `g` over the elements of `l` satisfying `p`. -/
def sumBy {α : Type} (g : α → ℚ) (p : α → Bool) (l : List α) : ℚ :=
  ((l.filter p).map g).sum

theorem sumBy_nil {α : Type} (g : α → ℚ) (p : α → Bool) : sumBy g p [] = 0 :=
  rfl

theorem sumBy_append {α : Type} (g : α → ℚ) (p : α → Bool) (l1 l2 : List α) :
    sumBy g p (l1 ++ l2) = sumBy g p l1 + sumBy g p l2 := by
  simp [sumBy, List.filter_append]

theorem sumBy_cons {α : Type} (g : α → ℚ) (p : α → Bool) (x : α) (l : List α) :
    sumBy g p (x :: l) = (if p x then g x else 0) + sumBy g p l := by
  by_cases hp : p x <;> simp [sumBy, List.filter_cons, hp]

theorem sumBy_eq_zero {α : Type} (g : α → ℚ) (p : α → Bool) (l : List α)
    (h : ∀ x ∈ l, p x = false) : sumBy g p l = 0 := by
  have : l.filter p = [] := List.filter_eq_nil_iff.mpr (by
    intro a ha
    simp [h a ha])
  simp [sumBy, this]

/-! ### Equation lemmas: the exact outcome of each handler in each branch -/

theorem register_dup_eq (db : DB) (uc : UserCreate) (fid hash : String)
    (now : Nat) (hdup : (db.users.find? (fun u => u.email == uc.email)).isSome) :
    register db uc fid hash now = (.error ⟨400, "Email already registered"⟩, db) := by
  unfold register
  cases hfind : db.users.find? (fun u => u.email == uc.email) with
  | none => rw [hfind] at hdup; simp at hdup
  | some u => rfl

theorem register_ok_eq (db : DB) (uc : UserCreate) (fid hash : String)
    (now : Nat) (hnew : db.users.find? (fun u => u.email == uc.email) = none) :
    register db uc fid hash now =
      (.ok { id := fid, email := uc.email, username := uc.username,
             is_admin := uc.is_admin, wallet_balance := 0 },
       { db with users := db.users ++
           [{ id := fid, email := uc.email, username := uc.username,
              password_hash := hash, is_admin := uc.is_admin,
              wallet_balance := 0, created_at := now }] }) := by
  unfold register
  rw [hnew]

theorem approve_forbidden_eq (db : DB) (a : User) (rid : String)
    (notes : Option String) (now : Nat) (ha : a.is_admin = false) :
    approve_topup db a rid notes now =
      (.error ⟨403, "Admin access required"⟩, db) := by
  unfold approve_topup get_admin_user
  rw [ha]
  rfl

theorem approve_not_pending_eq (db : DB) (a : User) (rid : String)
    (notes : Option String) (now : Nat) (request : TopUpRequest)
    (ha : a.is_admin = true)
    (hfind : db.topup_requests.find? (fun r => r.id == rid) = some request)
    (hst : request.status ≠ "pending") :
    approve_topup db a rid notes now =
      (.error ⟨400, "Request already processed"⟩, db) := by
  unfold approve_topup get_admin_user
  rw [ha]
  simp only [Bool.not_true, Bool.false_eq_true, if_false, hfind]
  rw [if_pos (by simpa using hst)]

theorem approve_ok_eq (db : DB) (a : User) (rid : String)
    (notes : Option String) (now : Nat) (request : TopUpRequest)
    (ha : a.is_admin = true)
    (hfind : db.topup_requests.find? (fun r => r.id == rid) = some request)
    (hst : request.status = "pending") :
    approve_topup db a rid notes now =
      (.ok "Top-up approved successfully",
       { db with
           users := updateFirst (fun u => u.id == request.user_id)
                      (incBalance request.amount) db.users,
           topup_requests := updateFirst (fun r => r.id == rid)
                      (markApproved now notes) db.topup_requests }) := by
  unfold approve_topup get_admin_user
  rw [ha]
  simp only [Bool.not_true, Bool.false_eq_true, if_false, hfind]
  rw [if_neg (by simp [hst])]

theorem reject_forbidden_eq (db : DB) (a : User) (rid snotes : String)
    (now : Nat) (ha : a.is_admin = false) :
    reject_topup db a rid snotes now =
      (.error ⟨403, "Admin access required"⟩, db) := by
  unfold reject_topup get_admin_user
  rw [ha]
  rfl

theorem reject_not_pending_eq (db : DB) (a : User) (rid snotes : String)
    (now : Nat) (request : TopUpRequest)
    (ha : a.is_admin = true)
    (hfind : db.topup_requests.find? (fun r => r.id == rid) = some request)
    (hst : request.status ≠ "pending") :
    reject_topup db a rid snotes now =
      (.error ⟨400, "Request already processed"⟩, db) := by
  unfold reject_topup get_admin_user
  rw [ha]
  simp only [Bool.not_true, Bool.false_eq_true, if_false, hfind]
  rw [if_pos (by simpa using hst)]

theorem reject_ok_eq (db : DB) (a : User) (rid snotes : String)
    (now : Nat) (request : TopUpRequest)
    (ha : a.is_admin = true)
    (hfind : db.topup_requests.find? (fun r => r.id == rid) = some request)
    (hst : request.status = "pending") :
    reject_topup db a rid snotes now =
      (.ok "Top-up rejected",
       { db with topup_requests := updateFirst (fun r => r.id == rid)
                   (markRejected now snotes) db.topup_requests }) := by
  unfold reject_topup get_admin_user
  rw [ha]
  simp only [Bool.not_true, Bool.false_eq_true, if_false, hfind]
  rw [if_neg (by simp [hst])]

theorem purchase_insufficient_eq (db : DB) (cu : User) (pid fid : String)
    (now : Nat) (product : Product)
    (hfind : db.products.find? (fun p => p.id == pid) = some product)
    (hlt : cu.wallet_balance < product.price) :
    purchase_product db cu pid fid now =
      (.error ⟨400, "Insufficient wallet balance"⟩, db) := by
  unfold purchase_product
  simp only [hfind]
  rw [if_pos (by exact_mod_cast hlt)]

theorem purchase_ok_eq (db : DB) (cu : User) (pid fid : String)
    (now : Nat) (product : Product)
    (hfind : db.products.find? (fun p => p.id == pid) = some product)
    (hle : product.price ≤ cu.wallet_balance) :
    purchase_product db cu pid fid now =
      (.ok fid,
       { db with
           users := updateFirst (fun u => u.id == cu.id)
                      (decBalance product.price) db.users,
           purchases := db.purchases ++
             [{ id := fid, user_id := cu.id, product_id := pid,
                product_name := product.name, amount := product.price,
                created_at := now }] }) := by
  unfold purchase_product
  simp only [hfind]
  rw [if_neg (by simpa using not_lt.mpr hle)]

/-! ### The wallet-balance accounting invariant -/

/-- Sum of the amounts of user `uid`'s approved top-up requests. -/
def approvedSum (db : DB) (uid : String) : ℚ :=
  sumBy TopUpRequest.amount
    (fun r => r.user_id == uid && r.status == "approved") db.topup_requests

/-- Sum of the amounts of user `uid`'s purchase records. -/
def purchasedSum (db : DB) (uid : String) : ℚ :=
  sumBy Purchase.amount (fun p => p.user_id == uid) db.purchases

/-- Every stored user's `wallet_balance` equals the sum of their approved
top-ups minus the sum of their purchases. -/
def BalInv (db : DB) : Prop :=
  ∀ u ∈ db.users, u.wallet_balance = approvedSum db u.id - purchasedSum db u.id

/-- The stored users carry pairwise distinct ids (uuid4 freshness). -/
def UsersNodup (db : DB) : Prop := (db.users.map User.id).Nodup

instance (db : DB) : Decidable (BalInv db) :=
  inferInstanceAs (Decidable (∀ u ∈ db.users,
    u.wallet_balance = approvedSum db u.id - purchasedSum db u.id))

instance (db : DB) : Decidable (UsersNodup db) :=
  inferInstanceAs (Decidable ((db.users.map User.id).Nodup))

theorem register_preserves (db : DB) (uc : UserCreate) (fid hash : String)
    (now : Nat) (hn : UsersNodup db) (hb : BalInv db)
    (hfid : ∀ u ∈ db.users, u.id ≠ fid)
    (htid : ∀ r ∈ db.topup_requests, r.user_id ≠ fid)
    (hpid : ∀ p ∈ db.purchases, p.user_id ≠ fid) :
    UsersNodup (register db uc fid hash now).2 ∧
      BalInv (register db uc fid hash now).2 := by
  cases hfind : db.users.find? (fun u => u.email == uc.email) with
  | some u =>
    rw [register_dup_eq db uc fid hash now (by rw [hfind]; rfl)]
    exact ⟨hn, hb⟩
  | none =>
    rw [register_ok_eq db uc fid hash now hfind]
    constructor
    · show (List.map User.id (db.users ++ [_])).Nodup
      rw [List.map_append, List.nodup_append]
      refine ⟨hn, by simp, ?_⟩
      intro x hx
      obtain ⟨u, hu, rfl⟩ := List.mem_map.mp hx
      simp [hfid u hu]
    · intro u hu
      rcases List.mem_append.mp hu with hu | hu
      · exact hb u hu
      · have hu : u = { id := fid, email := uc.email,
                        username := uc.username, password_hash := hash,
                        is_admin := uc.is_admin, wallet_balance := 0,
                        created_at := now } := by simpa using hu
        subst hu
        show (0 : ℚ) = approvedSum _ fid - purchasedSum _ fid
        have h1 : approvedSum db fid = 0 := by
          refine sumBy_eq_zero _ _ _ ?_
          intro r hr
          simp [beq_eq_false_iff_ne, htid r hr]
        have h2 : purchasedSum db fid = 0 := by
          refine sumBy_eq_zero _ _ _ ?_
          intro p hp
          simp [beq_eq_false_iff_ne, hpid p hp]
        show (0 : ℚ) = sumBy _ _ db.topup_requests - sumBy _ _ db.purchases
        rw [show sumBy TopUpRequest.amount
              (fun r => r.user_id == fid && r.status == "approved")
              db.topup_requests = approvedSum db fid from rfl, h1,
            show sumBy Purchase.amount (fun p => p.user_id == fid)
              db.purchases = purchasedSum db fid from rfl, h2]
        norm_num

theorem request_topup_preserves (db : DB) (cu : User) (tc : TopUpCreate)
    (fid : String) (now : Nat) (hn : UsersNodup db) (hb : BalInv db) :
    UsersNodup (request_topup db cu tc fid now).2 ∧
      BalInv (request_topup db cu tc fid now).2 := by
  refine ⟨hn, ?_⟩
  intro u hu
  have hbu := hb u hu
  show u.wallet_balance =
    sumBy TopUpRequest.amount _ (db.topup_requests ++ [_]) -
      purchasedSum db u.id
  rw [sumBy_append, sumBy_cons, sumBy_nil]
  simpa using hbu

theorem reject_topup_preserves (db : DB) (a : User) (rid snotes : String)
    (now : Nat) (hn : UsersNodup db) (hb : BalInv db) :
    UsersNodup (reject_topup db a rid snotes now).2 ∧
      BalInv (reject_topup db a rid snotes now).2 := by
  by_cases ha : a.is_admin
  case neg =>
    rw [reject_forbidden_eq db a rid snotes now (by simpa using ha)]
    exact ⟨hn, hb⟩
  case pos =>
  cases hfind : db.topup_requests.find? (fun r => r.id == rid) with
  | none =>
    unfold reject_topup get_admin_user
    rw [ha]
    simp only [Bool.not_true, Bool.false_eq_true, if_false, hfind]
    exact ⟨hn, hb⟩
  | some request =>
    by_cases hst : request.status = "pending"
    case neg =>
      rw [reject_not_pending_eq db a rid snotes now request ha hfind hst]
      exact ⟨hn, hb⟩
    case pos =>
      rw [reject_ok_eq db a rid snotes now request ha hfind hst]
      obtain ⟨t1, t2, hdec, -, hupd⟩ :=
        updateFirst_decomp (fun r => r.id == rid) (markRejected now snotes)
          db.topup_requests request hfind
      refine ⟨hn, ?_⟩
      intro u hu
      have hbu := hb u hu
      show u.wallet_balance =
        sumBy TopUpRequest.amount _
          (updateFirst (fun r => r.id == rid) (markRejected now snotes)
            db.topup_requests) - purchasedSum db u.id
      rw [hupd]
      have hold : approvedSum db u.id =
          sumBy TopUpRequest.amount
            (fun r => r.user_id == u.id && r.status == "approved")
            (t1 ++ request :: t2) := by
        rw [← hdec]; rfl
      rw [sumBy_append, sumBy_cons] at hold ⊢
      have hpend : (request.user_id == u.id &&
          request.status == "approved") = false := by
        simp [hst]
      have hrej : ((markRejected now snotes request).user_id == u.id &&
          (markRejected now snotes request).status == "approved") = false := by
        simp [markRejected]
      rw [hrej]
      rw [hpend] at hold
      rw [hbu, hold]
      simp [markRejected]

theorem approve_topup_preserves (db : DB) (a : User) (rid : String)
    (notes : Option String) (now : Nat)
    (hn : UsersNodup db) (hb : BalInv db) :
    UsersNodup (approve_topup db a rid notes now).2 ∧
      BalInv (approve_topup db a rid notes now).2 := by
  by_cases ha : a.is_admin
  case neg =>
    rw [approve_forbidden_eq db a rid notes now (by simpa using ha)]
    exact ⟨hn, hb⟩
  case pos =>
  cases hfind : db.topup_requests.find? (fun r => r.id == rid) with
  | none =>
    unfold approve_topup get_admin_user
    rw [ha]
    simp only [Bool.not_true, Bool.false_eq_true, if_false, hfind]
    exact ⟨hn, hb⟩
  | some request =>
    by_cases hst : request.status = "pending"
    case neg =>
      rw [approve_not_pending_eq db a rid notes now request ha hfind hst]
      exact ⟨hn, hb⟩
    case pos =>
      rw [approve_ok_eq db a rid notes now request ha hfind hst]
      obtain ⟨t1, t2, htdec, ht1, htupd⟩ :=
        updateFirst_decomp (fun r => r.id == rid) (markApproved now notes)
          db.topup_requests request hfind
      have hAS : ∀ uid, sumBy TopUpRequest.amount
          (fun r => r.user_id == uid && r.status == "approved")
          (updateFirst (fun r => r.id == rid) (markApproved now notes)
            db.topup_requests)
          = approvedSum db uid
            + (if request.user_id == uid then request.amount else 0) := by
        intro uid
        have hold : approvedSum db uid = sumBy TopUpRequest.amount
            (fun r => r.user_id == uid && r.status == "approved")
            (t1 ++ request :: t2) := by
          rw [approvedSum, htdec]
        rw [htupd, hold, sumBy_append, sumBy_append, sumBy_cons, sumBy_cons]
        have h1 : (request.user_id == uid && request.status == "approved")
            = false := by simp [hst]
        have h2 : ((markApproved now notes request).user_id == uid &&
            (markApproved now notes request).status == "approved")
            = (request.user_id == uid) := by simp [markApproved]
        rw [h1, h2]
        rcases Bool.eq_false_or_eq_true (request.user_id == uid) with hx | hx
        · simp [hx, markApproved]
          ring
        · simp [hx, markApproved]
      have hmap : (updateFirst (fun u => u.id == request.user_id)
          (incBalance request.amount) db.users).map User.id =
          db.users.map User.id :=
        map_updateFirst (fun u => u.id == request.user_id)
          (incBalance request.amount) User.id (fun x => rfl) db.users
      refine ⟨?_, ?_⟩
      · show (List.map User.id (updateFirst (fun u => u.id == request.user_id)
          (incBalance request.amount) db.users)).Nodup
        rw [hmap]
        exact hn
      · intro u hu
        replace hu : u ∈ updateFirst (fun x => x.id == request.user_id)
            (incBalance request.amount) db.users := hu
        cases hufind : db.users.find? (fun x => x.id == request.user_id) with
        | none =>
          rw [updateFirst_eq_of_find?_eq_none _ _ _ hufind] at hu
          have hne : (request.user_id == u.id) = false := by
            rw [beq_eq_false_iff_ne]
            intro h
            have := List.find?_eq_none.mp hufind u hu
            simp [h] at this
          have hbu := hb u hu
          show u.wallet_balance = sumBy TopUpRequest.amount
            (fun r => r.user_id == u.id && r.status == "approved")
            (updateFirst (fun r => r.id == rid) (markApproved now notes)
              db.topup_requests) - purchasedSum db u.id
          rw [hAS u.id, hne]
          simpa using hbu
        | some u0 =>
          obtain ⟨m1, m2, hudec, hm1, huupd⟩ :=
            updateFirst_decomp (fun x => x.id == request.user_id)
              (incBalance request.amount) db.users u0 hufind
          have hu0id : u0.id = request.user_id := by
            have := List.find?_some hufind
            simpa using this
          have hnd := hn
          rw [UsersNodup, hudec, List.map_append, List.map_cons] at hnd
          have hm2 : ∀ y ∈ m2, y.id ≠ u0.id := by
            intro y hy heq
            have h1 := List.Nodup.of_append_right hnd
            rw [List.nodup_cons] at h1
            exact h1.1 (heq ▸ List.mem_map_of_mem User.id hy)
          rw [huupd] at hu
          rcases List.mem_append.mp hu with hu | hu
          · have hne : (u.id == request.user_id) = false := hm1 u hu
            have hneq : (request.user_id == u.id) = false := by
              rw [beq_eq_false_iff_ne] at hne ⊢
              exact Ne.symm hne
            have hmem : u ∈ db.users := by
              rw [hudec]
              exact List.mem_append_left _ hu
            have hbu := hb u hmem
            show u.wallet_balance = sumBy TopUpRequest.amount
              (fun r => r.user_id == u.id && r.status == "approved")
              (updateFirst (fun r => r.id == rid) (markApproved now notes)
                db.topup_requests) - purchasedSum db u.id
            rw [hAS u.id, hneq]
            simpa using hbu
          · rcases List.mem_cons.mp hu with rfl | hu
            · have hmem : u0 ∈ db.users := by
                rw [hudec]
                exact List.mem_append_right _ (List.mem_cons_self _ _)
              have hbu := hb u0 hmem
              have heq : (request.user_id == (incBalance request.amount u0).id)
                  = true := by
                rw [beq_iff_eq]
                exact hu0id.symm
              show u0.wallet_balance + request.amount = sumBy TopUpRequest.amount
                (fun r => r.user_id == (incBalance request.amount u0).id &&
                  r.status == "approved")
                (updateFirst (fun r => r.id == rid) (markApproved now notes)
                  db.topup_requests) - purchasedSum db (incBalance request.amount u0).id
              rw [hAS (incBalance request.amount u0).id, heq]
              have hids : (incBalance request.amount u0).id = u0.id := rfl
              rw [hids, hbu]
              simp only [if_true]
              ring
            · have hne : (request.user_id == u.id) = false := by
                rw [beq_eq_false_iff_ne]
                intro h
                exact hm2 u hu (h ▸ hu0id).symm
              have hmem : u ∈ db.users := by
                rw [hudec]
                exact List.mem_append_right _ (List.mem_cons_of_mem _ hu)
              have hbu := hb u hmem
              show u.wallet_balance = sumBy TopUpRequest.amount
                (fun r => r.user_id == u.id && r.status == "approved")
                (updateFirst (fun r => r.id == rid) (markApproved now notes)
                  db.topup_requests) - purchasedSum db u.id
              rw [hAS u.id, hne]
              simpa using hbu

theorem purchase_product_preserves (db : DB) (cu : User) (pid fid : String)
    (now : Nat) (hn : UsersNodup db) (hb : BalInv db) (hcu : cu ∈ db.users) :
    UsersNodup (purchase_product db cu pid fid now).2 ∧
      BalInv (purchase_product db cu pid fid now).2 := by
  cases hpfind : db.products.find? (fun p => p.id == pid) with
  | none =>
    unfold purchase_product
    simp only [hpfind]
    exact ⟨hn, hb⟩
  | some product =>
    by_cases hlt : cu.wallet_balance < product.price
    case pos =>
      rw [purchase_insufficient_eq db cu pid fid now product hpfind hlt]
      exact ⟨hn, hb⟩
    case neg =>
      rw [purchase_ok_eq db cu pid fid now product hpfind (not_lt.mp hlt)]
      have hufind : db.users.find? (fun y => y.id == cu.id) = some cu :=
        find?_key_of_nodup User.id db.users cu hn hcu
      obtain ⟨m1, m2, hudec, hm1, huupd⟩ :=
        updateFirst_decomp (fun y => y.id == cu.id)
          (decBalance product.price) db.users cu hufind
      have hPS : ∀ uid, sumBy Purchase.amount (fun p => p.user_id == uid)
          (db.purchases ++
            [{ id := fid, user_id := cu.id, product_id := pid,
               product_name := product.name, amount := product.price,
               created_at := now }])
          = purchasedSum db uid
            + (if cu.id == uid then product.price else 0) := by
        intro uid
        rw [sumBy_append, sumBy_cons, sumBy_nil]
        rcases Bool.eq_false_or_eq_true (cu.id == uid) with hx | hx
        · simp [hx, purchasedSum]
        · simp [hx, purchasedSum]
      have hmap : (updateFirst (fun y => y.id == cu.id)
          (decBalance product.price) db.users).map User.id =
          db.users.map User.id :=
        map_updateFirst (fun y => y.id == cu.id)
          (decBalance product.price) User.id (fun x => rfl) db.users
      have hnd := hn
      rw [UsersNodup, hudec, List.map_append, List.map_cons] at hnd
      have hm2 : ∀ y ∈ m2, y.id ≠ cu.id := by
        intro y hy heq
        have h1 := List.Nodup.of_append_right hnd
        rw [List.nodup_cons] at h1
        exact h1.1 (heq ▸ List.mem_map_of_mem User.id hy)
      refine ⟨?_, ?_⟩
      · show (List.map User.id (updateFirst (fun y => y.id == cu.id)
          (decBalance product.price) db.users)).Nodup
        rw [hmap]
        exact hn
      · intro u hu
        replace hu : u ∈ updateFirst (fun y => y.id == cu.id)
            (decBalance product.price) db.users := hu
        rw [huupd] at hu
        rcases List.mem_append.mp hu with hu | hu
        · have hne : (u.id == cu.id) = false := hm1 u hu
          have hneq : (cu.id == u.id) = false := by
            rw [beq_eq_false_iff_ne] at hne ⊢
            exact Ne.symm hne
          have hmem : u ∈ db.users := by
            rw [hudec]
            exact List.mem_append_left _ hu
          have hbu := hb u hmem
          show u.wallet_balance = approvedSum db u.id - sumBy Purchase.amount
            (fun p => p.user_id == u.id)
            (db.purchases ++
              [{ id := fid, user_id := cu.id, product_id := pid,
                 product_name := product.name, amount := product.price,
                 created_at := now }])
          rw [hPS u.id, hneq]
          simpa using hbu
        · rcases List.mem_cons.mp hu with rfl | hu
          · have hbu := hb cu hcu
            have heq : (cu.id == (decBalance product.price cu).id) = true := by
              rw [beq_iff_eq]
              rfl
            show cu.wallet_balance - product.price =
              approvedSum db (decBalance product.price cu).id -
                sumBy Purchase.amount
                  (fun p => p.user_id == (decBalance product.price cu).id)
                  (db.purchases ++
                    [{ id := fid, user_id := cu.id, product_id := pid,
                       product_name := product.name, amount := product.price,
                       created_at := now }])
            rw [hPS (decBalance product.price cu).id, heq]
            have hids : (decBalance product.price cu).id = cu.id := rfl
            rw [hids, hbu]
            simp only [if_true]
            ring
          · have hne : (cu.id == u.id) = false := by
              rw [beq_eq_false_iff_ne]
              intro h
              exact hm2 u hu h.symm
            have hmem : u ∈ db.users := by
              rw [hudec]
              exact List.mem_append_right _ (List.mem_cons_of_mem _ hu)
            have hbu := hb u hmem
            show u.wallet_balance = approvedSum db u.id - sumBy Purchase.amount
              (fun p => p.user_id == u.id)
              (db.purchases ++
                [{ id := fid, user_id := cu.id, product_id := pid,
                   product_name := product.name, amount := product.price,
                   created_at := now }])
            rw [hPS u.id, hne]
            simpa using hbu

/-! ### Sequential traces of API operations -/

/-- One sequentially executed API call, carrying the caller's token email,
the request payload, and the environment-supplied fresh uuid / timestamp. -/
inductive Op where
  | opRegister (uc : UserCreate) (fresh_id hash : String) (now : Nat)
  | opTopup (email : String) (tc : TopUpCreate) (fresh_id : String) (now : Nat)
  | opApprove (admin_email rid : String) (notes : Option String) (now : Nat)
  | opReject (admin_email rid snotes : String) (now : Nat)
  | opPurchase (email pid fresh_id : String) (now : Nat)
deriving DecidableEq

/-- Execute one operation against the store: resolve the caller as
`get_current_user` does, run the handler, and keep the resulting state
(unchanged when the handler raised). -/
def runOp (db : DB) : Op → DB
  | .opRegister uc fid hash now => (register db uc fid hash now).2
  | .opTopup em tc fid now =>
    match get_current_user db em with
    | .error _ => db
    | .ok cu => (request_topup db cu tc fid now).2
  | .opApprove aem rid notes now =>
    match get_current_user db aem with
    | .error _ => db
    | .ok cu => (approve_topup db cu rid notes now).2
  | .opReject aem rid snotes now =>
    match get_current_user db aem with
    | .error _ => db
    | .ok cu => (reject_topup db cu rid snotes now).2
  | .opPurchase em pid fid now =>
    match get_current_user db em with
    | .error _ => db
    | .ok cu => (purchase_product db cu pid fid now).2

/-- Execute a whole trace left to right. -/
def runTrace (db : DB) : List Op → DB
  | [] => db
  | op :: ops => runTrace (runOp db op) ops

/-- `uuid4` freshness: the id generated for a `register` call differs from
every id already stored (the other operations need no freshness for the
accounting invariant). -/
def opFresh (db : DB) : Op → Prop
  | .opRegister _ fid _ _ =>
    (∀ u ∈ db.users, u.id ≠ fid) ∧ (∀ r ∈ db.topup_requests, r.user_id ≠ fid)
      ∧ (∀ p ∈ db.purchases, p.user_id ≠ fid)
  | _ => True

/-- Freshness along a whole trace. -/
def traceFresh : DB → List Op → Prop
  | _, [] => True
  | db, op :: ops => opFresh db op ∧ traceFresh (runOp db op) ops

instance (db : DB) (op : Op) : Decidable (opFresh db op) := by
  cases op <;> simp only [opFresh] <;> infer_instance

instance traceFreshDec : (db : DB) → (ops : List Op) →
    Decidable (traceFresh db ops)
  | _, [] => isTrue trivial
  | db, op :: ops =>
    haveI := traceFreshDec (runOp db op) ops
    inferInstanceAs (Decidable (opFresh db op ∧ traceFresh (runOp db op) ops))

theorem wf_runOp (db : DB) (op : Op) (hn : UsersNodup db) (hb : BalInv db)
    (hf : opFresh db op) :
    UsersNodup (runOp db op) ∧ BalInv (runOp db op) := by
  cases op with
  | opRegister uc fid hash now =>
    obtain ⟨h1, h2, h3⟩ := hf
    exact register_preserves db uc fid hash now hn hb h1 h2 h3
  | opTopup em tc fid now =>
    simp only [runOp]
    cases hcu : get_current_user db em with
    | error e => exact ⟨hn, hb⟩
    | ok cu => exact request_topup_preserves db cu tc fid now hn hb
  | opApprove aem rid notes now =>
    simp only [runOp]
    cases hcu : get_current_user db aem with
    | error e => exact ⟨hn, hb⟩
    | ok cu => exact approve_topup_preserves db cu rid notes now hn hb
  | opReject aem rid snotes now =>
    simp only [runOp]
    cases hcu : get_current_user db aem with
    | error e => exact ⟨hn, hb⟩
    | ok cu => exact reject_topup_preserves db cu rid snotes now hn hb
  | opPurchase em pid fid now =>
    simp only [runOp]
    cases hcu : get_current_user db em with
    | error e => exact ⟨hn, hb⟩
    | ok cu =>
      have hmem : cu ∈ db.users := by
        unfold get_current_user at hcu
        cases hfind : db.users.find? (fun u => u.email == em) with
        | none => rw [hfind] at hcu; cases hcu
        | some u =>
          rw [hfind] at hcu
          cases hcu
          exact List.mem_of_find?_eq_some hfind
      exact purchase_product_preserves db cu pid fid now hn hb hmem

theorem wf_runTrace : ∀ (ops : List Op) (db : DB), UsersNodup db → BalInv db →
    traceFresh db ops → UsersNodup (runTrace db ops) ∧ BalInv (runTrace db ops)
  | [], db, hn, hb, _ => ⟨hn, hb⟩
  | op :: ops, db, hn, hb, hf => by
    obtain ⟨hf1, hf2⟩ := hf
    obtain ⟨hn1, hb1⟩ := wf_runOp db op hn hb hf1
    exact wf_runTrace ops (runOp db op) hn1 hb1 hf2

/-! ### Concrete example data used by the witnesses -/

/-- An active 20-credit product preloaded in the example store. -/
def exProduct : Product :=
  { id := "prod-1", name := "Widget", description := "d", price := 20,
    image_url := "u", category := "c", is_active := true, created_at := 0 }

/-- Example initial store: no users yet, one product. -/
def exDB0 : DB := ⟨[], [exProduct], [], [], []⟩

/-- Example trace: an admin and a regular user register, the user submits a
50 top-up, the admin approves it, the user buys the 20-credit product. -/
def exOps : List Op :=
  [ .opRegister ⟨"admin@x", "admin", "pw", true⟩ "id-admin" "h1" 1,
    .opRegister ⟨"alice@x", "alice", "pw", false⟩ "id-alice" "h2" 2,
    .opTopup "alice@x" ⟨50, "receipt"⟩ "top-1" 3,
    .opApprove "admin@x" "top-1" (some "ok") 4,
    .opPurchase "alice@x" "prod-1" "pur-1" 5 ]

/-- An example regular user with balance 0. -/
def exAlice : User :=
  { id := "u-alice", email := "alice@x", username := "alice",
    password_hash := "h", is_admin := false, wallet_balance := 0,
    created_at := 0 }

/-- An example admin user. -/
def exAdmin : User :=
  { id := "u-admin", email := "admin@x", username := "admin",
    password_hash := "h", is_admin := true, wallet_balance := 0,
    created_at := 0 }

/-- A pending 50-credit top-up request by `exAlice`. -/
def exTopup : TopUpRequest :=
  { id := "t-1", user_id := "u-alice", amount := 50, receipt_data := "r",
    status := "pending", created_at := 0, processed_at := none,
    admin_notes := none }

/-- Example store for the approval claims: both users, the pending top-up. -/
def exDB2 : DB := ⟨[exAdmin, exAlice], [], [exTopup], [], []⟩

/-! ### The claims -/

/-- C1: along every sequentially executed trace of operations (register,
top-up submission, top-up approval/rejection, purchase) started from a
store whose user ids are distinct and whose balances already satisfy the
accounting equation, each user's `wallet_balance` equals the sum of the
amounts of their approved top-up requests minus the sum of the amounts of
their purchase records. -/
theorem C1_wallet_balance_accounting (db0 : DB) (ops : List Op)
    (hn : UsersNodup db0) (hb : BalInv db0) (hf : traceFresh db0 ops) :
    ∀ u ∈ (runTrace db0 ops).users,
      u.wallet_balance = approvedSum (runTrace db0 ops) u.id
        - purchasedSum (runTrace db0 ops) u.id :=
  (wf_runTrace ops db0 hn hb hf).2

theorem C1_wallet_balance_accounting_witness :
    UsersNodup exDB0 ∧ BalInv exDB0 ∧ traceFresh exDB0 exOps ∧
      ∀ u ∈ (runTrace exDB0 exOps).users,
        u.wallet_balance = approvedSum (runTrace exDB0 exOps) u.id
          - purchasedSum (runTrace exDB0 exOps) u.id :=
  ⟨by decide, by decide, by decide,
    C1_wallet_balance_accounting exDB0 exOps (by decide) (by decide)
      (by decide)⟩

/-- C2: approving a pending top-up request returns success, increments the
requesting user's `wallet_balance` by exactly the request's amount, and
marks the request approved with the `processed_at` timestamp and the
optional admin note. -/
theorem C2_approve_topup_effect (db : DB) (admin : User) (rid : String)
    (notes : Option String) (now : Nat) (r : TopUpRequest) (u : User)
    (ha : admin.is_admin = true)
    (hr : db.topup_requests.find? (fun t => t.id == rid) = some r)
    (hpend : r.status = "pending")
    (hu : db.users.find? (fun x => x.id == r.user_id) = some u) :
    (approve_topup db admin rid notes now).1 =
        .ok "Top-up approved successfully" ∧
    (approve_topup db admin rid notes now).2.users.find?
        (fun x => x.id == r.user_id) =
      some { u with wallet_balance := u.wallet_balance + r.amount } ∧
    (approve_topup db admin rid notes now).2.topup_requests.find?
        (fun t => t.id == rid) =
      some { r with status := "approved", processed_at := some now,
                    admin_notes := notes } := by
  rw [approve_ok_eq db admin rid notes now r ha hr hpend]
  refine ⟨rfl, ?_, ?_⟩
  · show (updateFirst (fun x => x.id == r.user_id) (incBalance r.amount)
      db.users).find? (fun x => x.id == r.user_id) = _
    rw [find?_updateFirst_same (fun x => x.id == r.user_id)
      (incBalance r.amount) (fun x => rfl) db.users, hu]
    rfl
  · show (updateFirst (fun t => t.id == rid) (markApproved now notes)
      db.topup_requests).find? (fun t => t.id == rid) = _
    rw [find?_updateFirst_same (fun t => t.id == rid)
      (markApproved now notes) (fun x => rfl) db.topup_requests, hr]
    rfl

theorem C2_approve_topup_effect_witness :
    (approve_topup exDB2 exAdmin "t-1" (some "ok") 9).1 =
        .ok "Top-up approved successfully" ∧
    (approve_topup exDB2 exAdmin "t-1" (some "ok") 9).2.users.find?
        (fun x => x.id == "u-alice") =
      some { exAlice with wallet_balance := 50 } ∧
    (approve_topup exDB2 exAdmin "t-1" (some "ok") 9).2.topup_requests.find?
        (fun t => t.id == "t-1") =
      some { exTopup with status := "approved", processed_at := some 9,
                          admin_notes := some "ok" } := by
  obtain ⟨h1, h2, h3⟩ := C2_approve_topup_effect exDB2 exAdmin "t-1"
    (some "ok") 9 exTopup exAlice rfl (by decide) rfl (by decide)
  have e : ({ exAlice with wallet_balance := 50 } : User) =
      { exAlice with
          wallet_balance := exAlice.wallet_balance + exTopup.amount } := by
    simp [exAlice, exTopup]
  exact ⟨h1, by rw [e]; exact h2, h3⟩

/-- C4: purchasing an existing product priced strictly above the caller's
current `wallet_balance` fails with a 400 "Insufficient wallet balance",
and the store — balances and purchase records included — is unchanged. -/
theorem C4_purchase_insufficient_balance (db : DB) (u : User) (prod : Product)
    (pid fid : String) (now : Nat)
    (hp : db.products.find? (fun q => q.id == pid) = some prod)
    (hgt : u.wallet_balance < prod.price) :
    purchase_product db u pid fid now =
      (.error ⟨400, "Insufficient wallet balance"⟩, db) :=
  purchase_insufficient_eq db u pid fid now prod hp hgt

theorem C4_purchase_insufficient_balance_witness :
    purchase_product ⟨[exAlice], [exProduct], [], [], []⟩ exAlice "prod-1"
        "pur-9" 7 =
      (.error ⟨400, "Insufficient wallet balance"⟩,
       ⟨[exAlice], [exProduct], [], [], []⟩) :=
  C4_purchase_insufficient_balance ⟨[exAlice], [exProduct], [], [], []⟩
    exAlice exProduct "prod-1" "pur-9" 7 (by decide) (by decide)

/-- C5: once a top-up request is no longer pending, both a further approve
and a further reject fail with 400 "Request already processed" and leave
the whole store (the request and every user's balance included)
unchanged; hence a request transitions at most once out of pending. -/
theorem C5_processed_topup_immutable (db : DB) (admin : User) (rid : String)
    (notes : Option String) (snotes : String) (now : Nat) (r : TopUpRequest)
    (ha : admin.is_admin = true)
    (hr : db.topup_requests.find? (fun t => t.id == rid) = some r)
    (hnp : r.status ≠ "pending") :
    approve_topup db admin rid notes now =
        (.error ⟨400, "Request already processed"⟩, db) ∧
    reject_topup db admin rid snotes now =
        (.error ⟨400, "Request already processed"⟩, db) :=
  ⟨approve_not_pending_eq db admin rid notes now r ha hr hnp,
   reject_not_pending_eq db admin rid snotes now r ha hr hnp⟩

theorem C5_processed_topup_immutable_witness :
    approve_topup ⟨[exAdmin], [], [{ exTopup with status := "approved" }],
        [], []⟩ exAdmin "t-1" none 8 =
      (.error ⟨400, "Request already processed"⟩,
       ⟨[exAdmin], [], [{ exTopup with status := "approved" }], [], []⟩) ∧
    reject_topup ⟨[exAdmin], [], [{ exTopup with status := "approved" }],
        [], []⟩ exAdmin "t-1" "" 8 =
      (.error ⟨400, "Request already processed"⟩,
       ⟨[exAdmin], [], [{ exTopup with status := "approved" }], [], []⟩) :=
  C5_processed_topup_immutable
    ⟨[exAdmin], [], [{ exTopup with status := "approved" }], [], []⟩
    exAdmin "t-1" none "" 8 { exTopup with status := "approved" }
    (by decide) (by decide) (by decide)

/-- C6: rejecting a pending top-up request succeeds and changes only that
request's `status`, `processed_at` and `admin_notes`; every other field of
the request, every other request, and the rest of the store — users and
their balances included — are unchanged. -/
theorem C6_reject_topup_frame (db : DB) (admin : User) (rid snotes : String)
    (now : Nat) (r : TopUpRequest)
    (ha : admin.is_admin = true)
    (hr : db.topup_requests.find? (fun t => t.id == rid) = some r)
    (hpend : r.status = "pending") :
    ∃ t1 t2, db.topup_requests = t1 ++ r :: t2 ∧
      reject_topup db admin rid snotes now =
        (.ok "Top-up rejected",
         { db with topup_requests :=
             t1 ++ ({ r with status := "rejected", processed_at := some now,
                             admin_notes := some snotes } :: t2) }) := by
  obtain ⟨t1, t2, hdec, -, hupd⟩ :=
    updateFirst_decomp (fun t => t.id == rid) (markRejected now snotes)
      db.topup_requests r hr
  refine ⟨t1, t2, hdec, ?_⟩
  rw [reject_ok_eq db admin rid snotes now r ha hr hpend, hupd]
  rfl

theorem C6_reject_topup_frame_witness :
    ∃ t1 t2, exDB2.topup_requests = t1 ++ exTopup :: t2 ∧
      reject_topup exDB2 exAdmin "t-1" "bad receipt" 9 =
        (.ok "Top-up rejected",
         { exDB2 with topup_requests :=
             t1 ++ ({ exTopup with status := "rejected",
                                   processed_at := some 9,
                                   admin_notes := some "bad receipt" }
                      :: t2) }) :=
  C6_reject_topup_frame exDB2 exAdmin "t-1" "bad receipt" 9 exTopup
    (by decide) (by decide) (by decide)

/-- C7: registering with the email of an already-registered user fails with
a 400 "Email already registered" and leaves the user store unchanged. -/
theorem C7_duplicate_email (db : DB) (uc : UserCreate) (fid hash : String)
    (now : Nat)
    (hdup : (db.users.find? (fun u => u.email == uc.email)).isSome) :
    register db uc fid hash now =
      (.error ⟨400, "Email already registered"⟩, db) :=
  register_dup_eq db uc fid hash now hdup

theorem C7_duplicate_email_witness :
    register ⟨[exAlice], [], [], [], []⟩ ⟨"alice@x", "other", "pw", false⟩
        "id-x" "h" 3 =
      (.error ⟨400, "Email already registered"⟩,
       ⟨[exAlice], [], [], [], []⟩) :=
  C7_duplicate_email ⟨[exAlice], [], [], [], []⟩
    ⟨"alice@x", "other", "pw", false⟩ "id-x" "h" 3 (by decide)

/-- C8: every admin-only operation (product creation, admin top-up listing,
top-up approval, top-up rejection, blog post creation) fails with a 403
"Admin access required" for an authenticated non-admin caller, leaving the
store unchanged. -/
theorem C8_non_admin_forbidden (db : DB) (u : User) (pc : ProductCreate)
    (bc : BlogPostCreate) (rid fid1 fid2 : String) (notes : Option String)
    (snotes : String) (now : Nat) (hu : u.is_admin = false) :
    create_product db u pc fid1 now =
        (.error ⟨403, "Admin access required"⟩, db) ∧
    get_all_topup_requests db u = .error ⟨403, "Admin access required"⟩ ∧
    approve_topup db u rid notes now =
        (.error ⟨403, "Admin access required"⟩, db) ∧
    reject_topup db u rid snotes now =
        (.error ⟨403, "Admin access required"⟩, db) ∧
    create_blog_post db u bc fid2 now =
        (.error ⟨403, "Admin access required"⟩, db) := by
  refine ⟨?_, ?_, approve_forbidden_eq db u rid notes now hu,
    reject_forbidden_eq db u rid snotes now hu, ?_⟩
  · unfold create_product get_admin_user
    rw [hu]
    rfl
  · unfold get_all_topup_requests get_admin_user
    rw [hu]
    rfl
  · unfold create_blog_post get_admin_user
    rw [hu]
    rfl

theorem C8_non_admin_forbidden_witness :
    create_product exDB2 exAlice ⟨"n", "d", 1, "u", "c"⟩ "p-1" 7 =
        (.error ⟨403, "Admin access required"⟩, exDB2) ∧
    get_all_topup_requests exDB2 exAlice =
        .error ⟨403, "Admin access required"⟩ ∧
    approve_topup exDB2 exAlice "t-1" none 7 =
        (.error ⟨403, "Admin access required"⟩, exDB2) ∧
    reject_topup exDB2 exAlice "t-1" "" 7 =
        (.error ⟨403, "Admin access required"⟩, exDB2) ∧
    create_blog_post exDB2 exAlice ⟨"t", "c"⟩ "b-1" 7 =
        (.error ⟨403, "Admin access required"⟩, exDB2) :=
  C8_non_admin_forbidden exDB2 exAlice ⟨"n", "d", 1, "u", "c"⟩ ⟨"t", "c"⟩
    "t-1" "p-1" "b-1" none "" 7 (by decide)

/-- C9: `register` stores the caller-supplied `is_admin` flag verbatim, so
an unauthenticated caller that sets `is_admin` to `true` in the
registration body obtains an account that passes the `get_admin_user`
guard. -/
theorem C9_register_stores_is_admin (db : DB) (uc : UserCreate)
    (fid hash : String) (now : Nat)
    (hnew : db.users.find? (fun u => u.email == uc.email) = none) :
    ∃ newu : User,
      (register db uc fid hash now).2.users = db.users ++ [newu] ∧
      newu.is_admin = uc.is_admin ∧ newu.email = uc.email ∧
      (register db uc fid hash now).1 =
        .ok { id := fid, email := uc.email, username := uc.username,
              is_admin := uc.is_admin, wallet_balance := 0 } ∧
      (uc.is_admin = true → get_admin_user newu = .ok newu) := by
  refine ⟨{ id := fid, email := uc.email, username := uc.username,
            password_hash := hash, is_admin := uc.is_admin,
            wallet_balance := 0, created_at := now }, ?_, rfl, rfl, ?_, ?_⟩
  · rw [register_ok_eq db uc fid hash now hnew]
  · rw [register_ok_eq db uc fid hash now hnew]
  · intro hadm
    unfold get_admin_user
    simp [hadm]

theorem C9_register_stores_is_admin_witness :
    ∃ newu : User,
      (register ⟨[], [], [], [], []⟩ ⟨"eve@x", "eve", "pw", true⟩
          "id-eve" "h" 1).2.users = [] ++ [newu] ∧
      newu.is_admin = true ∧ newu.email = "eve@x" ∧
      (register ⟨[], [], [], [], []⟩ ⟨"eve@x", "eve", "pw", true⟩
          "id-eve" "h" 1).1 =
        .ok { id := "id-eve", email := "eve@x", username := "eve",
              is_admin := true, wallet_balance := 0 } ∧
      (true = true → get_admin_user newu = .ok newu) :=
  C9_register_stores_is_admin ⟨[], [], [], [], []⟩
    ⟨"eve@x", "eve", "pw", true⟩ "id-eve" "h" 1 (by decide)

/-- An inactive product used by the C10 witness. -/
def exHidden : Product :=
  { id := "prod-h", name := "Hidden", description := "d", price := 5,
    image_url := "u", category := "c", is_active := false, created_at := 0 }

/-- C10: the product listing returns only active products, but the
single-product fetch and the purchase path ignore `is_active`: an
inactive product is absent from the listing yet can be fetched by id and
purchased by a sufficiently funded user. -/
theorem C10_is_active_ignored (db : DB) (u : User) (pid fid : String)
    (now : Nat) (prod : Product)
    (hp : db.products.find? (fun q => q.id == pid) = some prod)
    (hinactive : prod.is_active = false)
    (hle : prod.price ≤ u.wallet_balance) :
    (∀ q ∈ get_products db, q.is_active = true) ∧
    prod ∉ get_products db ∧
    get_product db pid = .ok prod ∧
    (purchase_product db u pid fid now).1 = .ok fid ∧
    (purchase_product db u pid fid now).2.purchases =
      db.purchases ++
        [{ id := fid, user_id := u.id, product_id := pid,
           product_name := prod.name, amount := prod.price,
           created_at := now }] := by
  refine ⟨?_, ?_, ?_, ?_, ?_⟩
  · intro q hq
    exact List.of_mem_filter (List.take_subset _ _ hq)
  · intro hmem
    have hq := List.of_mem_filter (List.take_subset _ _ hmem)
    simp [hinactive] at hq
  · unfold get_product
    rw [hp]
  · rw [purchase_ok_eq db u pid fid now prod hp hle]
  · rw [purchase_ok_eq db u pid fid now prod hp hle]

theorem C10_is_active_ignored_witness :
    (∀ q ∈ get_products ⟨[exAlice], [exHidden], [], [], []⟩,
        q.is_active = true) ∧
    exHidden ∉ get_products ⟨[exAlice], [exHidden], [], [], []⟩ ∧
    get_product ⟨[exAlice], [exHidden], [], [], []⟩ "prod-h" =
        .ok exHidden ∧
    (purchase_product ⟨[{ exAlice with wallet_balance := 9 }], [exHidden],
        [], [], []⟩ { exAlice with wallet_balance := 9 } "prod-h"
        "pur-h" 7).1 = .ok "pur-h" ∧
    (purchase_product ⟨[{ exAlice with wallet_balance := 9 }], [exHidden],
        [], [], []⟩ { exAlice with wallet_balance := 9 } "prod-h"
        "pur-h" 7).2.purchases =
      [] ++
        [{ id := "pur-h", user_id := "u-alice", product_id := "prod-h",
           product_name := "Hidden", amount := 5, created_at := 7 }] := by
  have h := C10_is_active_ignored ⟨[{ exAlice with wallet_balance := 9 }],
    [exHidden], [], [], []⟩ { exAlice with wallet_balance := 9 } "prod-h"
    "pur-h" 7 exHidden (by decide) (by decide) (by decide)
  exact ⟨h.1, h.2.1, h.2.2.1, h.2.2.2.1, h.2.2.2.2⟩

/-- C3 (amended): purchasing an existing product priced at or below the
caller's balance succeeds, decrements the balance by exactly the price,
and appends exactly one purchase record with that user, product, name and
price; the record is returned by the purchase-history listing provided the
user had fewer than 100 purchase records (`to_list(100)` caps the
listing at 100 documents). -/
theorem C3_purchase_success (db : DB) (u : User) (prod : Product)
    (pid fid : String) (now : Nat)
    (hp : db.products.find? (fun q => q.id == pid) = some prod)
    (hle : prod.price ≤ u.wallet_balance)
    (hu : db.users.find? (fun x => x.id == u.id) = some u)
    (hlen : (db.purchases.filter (fun q => q.user_id == u.id)).length < 100) :
    (purchase_product db u pid fid now).1 = .ok fid ∧
    (purchase_product db u pid fid now).2.purchases =
      db.purchases ++
        [{ id := fid, user_id := u.id, product_id := pid,
           product_name := prod.name, amount := prod.price,
           created_at := now }] ∧
    (purchase_product db u pid fid now).2.users.find?
        (fun x => x.id == u.id) =
      some { u with wallet_balance := u.wallet_balance - prod.price } ∧
    get_user_purchases (purchase_product db u pid fid now).2 u =
      get_user_purchases db u ++
        [{ id := fid, user_id := u.id, product_id := pid,
           product_name := prod.name, amount := prod.price,
           created_at := now }] := by
  rw [purchase_ok_eq db u pid fid now prod hp hle]
  refine ⟨rfl, rfl, ?_, ?_⟩
  · show (updateFirst (fun x => x.id == u.id) (decBalance prod.price)
      db.users).find? (fun x => x.id == u.id) = _
    rw [find?_updateFirst_same (fun x => x.id == u.id)
      (decBalance prod.price) (fun x => rfl) db.users, hu]
    rfl
  · simp only [get_user_purchases]
    rw [List.filter_append]
    have hone : List.filter (fun q => q.user_id == u.id)
        [({ id := fid, user_id := u.id, product_id := pid,
            product_name := prod.name, amount := prod.price,
            created_at := now } : Purchase)] =
        [{ id := fid, user_id := u.id, product_id := pid,
           product_name := prod.name, amount := prod.price,
           created_at := now }] := by
      simp [List.filter_cons]
    rw [hone]
    rw [List.take_of_length_le (by
      rw [List.length_append, List.length_singleton]
      omega)]
    rw [List.take_of_length_le (le_of_lt hlen)]

theorem C3_purchase_success_witness :
    (purchase_product ⟨[{ exAlice with wallet_balance := 50 }], [exProduct],
        [], [], []⟩ { exAlice with wallet_balance := 50 } "prod-1"
        "pur-1" 7).1 = .ok "pur-1" ∧
    (purchase_product ⟨[{ exAlice with wallet_balance := 50 }], [exProduct],
        [], [], []⟩ { exAlice with wallet_balance := 50 } "prod-1"
        "pur-1" 7).2.purchases =
      [] ++
        [{ id := "pur-1", user_id := "u-alice", product_id := "prod-1",
           product_name := "Widget", amount := 20, created_at := 7 }] ∧
    (purchase_product ⟨[{ exAlice with wallet_balance := 50 }], [exProduct],
        [], [], []⟩ { exAlice with wallet_balance := 50 } "prod-1"
        "pur-1" 7).2.users.find? (fun x => x.id == "u-alice") =
      some { exAlice with wallet_balance := 30 } ∧
    get_user_purchases (purchase_product
        ⟨[{ exAlice with wallet_balance := 50 }], [exProduct], [], [], []⟩
        { exAlice with wallet_balance := 50 } "prod-1" "pur-1" 7).2
        { exAlice with wallet_balance := 50 } =
      get_user_purchases ⟨[{ exAlice with wallet_balance := 50 }],
        [exProduct], [], [], []⟩ { exAlice with wallet_balance := 50 } ++
        [{ id := "pur-1", user_id := "u-alice", product_id := "prod-1",
           product_name := "Widget", amount := 20, created_at := 7 }] := by
  obtain ⟨h1, h2, h3, h4⟩ := C3_purchase_success
    ⟨[{ exAlice with wallet_balance := 50 }], [exProduct], [], [], []⟩
    { exAlice with wallet_balance := 50 } exProduct "prod-1" "pur-1" 7
    (by decide) (by decide) (by decide) (by decide)
  have e : ({ exAlice with wallet_balance := 30 } : User) =
      { { exAlice with wallet_balance := 50 } with
          wallet_balance :=
            ({ exAlice with wallet_balance := 50 } : User).wallet_balance -
              exProduct.price } := by
    simp [exAlice, exProduct]
    norm_num
  exact ⟨h1, h2, by rw [e]; exact h3, h4⟩

/-- 100 pre-existing purchase records of `exAlice`, exhausting the
100-document cap of the purchase-history listing. -/
def exManyPurchases : List Purchase :=
  (List.range 100).map (fun i =>
    { id := toString i, user_id := "u-alice", product_id := "prod-1",
      product_name := "Widget", amount := 1, created_at := 0 })

/-- `exAlice` funded with exactly the product price. -/
def exRichAlice : User := { exAlice with wallet_balance := 20 }

/-- Store with 100 prior purchases by `exAlice`. -/
def exDB3 : DB := ⟨[exRichAlice], [exProduct], [], exManyPurchases, []⟩

/-- C3 counterexample: with 100 prior purchase records, the purchase still
succeeds and inserts exactly one record, but that record is not returned
by the user's purchase-history listing (capped at 100 documents), so the
claim as stated fails. -/
theorem C3_counterexample :
    (purchase_product exDB3 exRichAlice "prod-1" "pur-new" 7).1 =
        .ok "pur-new" ∧
    (purchase_product exDB3 exRichAlice "prod-1" "pur-new" 7).2.purchases =
      exDB3.purchases ++
        [{ id := "pur-new", user_id := "u-alice", product_id := "prod-1",
           product_name := "Widget", amount := 20, created_at := 7 }] ∧
    ({ id := "pur-new", user_id := "u-alice", product_id := "prod-1",
       product_name := "Widget", amount := 20, created_at := 7 } : Purchase)
      ∉ get_user_purchases
          (purchase_product exDB3 exRichAlice "prod-1" "pur-new" 7).2
          exRichAlice := by
  refine ⟨rfl, rfl, by decide⟩
